import Mathlib

/-!
# Verification of the BB84 QKD simulation (`src/final1.py`)

Shallow embedding of `run_qkd_protocol` from `final1.py`.  All randomness
drawn by the program (`np.random.randint`, `np.random.rand`,
`np.random.choice`) is made explicit as a *tape* of pre-drawn values, so the
protocol becomes a pure function of the eavesdropper flag, the configuration
constants and the tape.  Bits (`0`/`1` ints in numpy) are modelled as `Bool`,
with the flip `1 - x` becoming boolean negation; the float `qber` and the
probability/threshold constants are modelled as exact rationals (`ℚ`).
-/

namespace QKD

/-- `NUM_PHOTONS = 1000` from the configuration block of `final1.py`. -/
def NUM_PHOTONS : Nat := 1000

/-- `EAVESDROP_PROB = 0.5` from the configuration block of `final1.py`,
as the exact rational (written with `mkRat` so that it evaluates). -/
def EAVESDROP_PROB : ℚ := mkRat 1 2

/-- `SECURITY_THRESHOLD = 0.11` from the configuration block of `final1.py`,
as the exact rational (written with `mkRat` so that it evaluates). -/
def SECURITY_THRESHOLD : ℚ := mkRat 11 100

/-- The configuration constants that `run_qkd_protocol` reads (the photon
count is carried separately as the tape length `N`). -/
structure Config where
  eavesdropProb : ℚ
  securityThreshold : ℚ
deriving DecidableEq, Repr

/-- The configuration actually fixed at the top of `final1.py`. -/
def defaultConfig : Config := ⟨EAVESDROP_PROB, SECURITY_THRESHOLD⟩

/-- One run's worth of random draws, made explicit.  `aliceBits`,
`aliceBases`, `bobBases`, `eveBases` model `np.random.randint(0, 2, N)`;
`eveUniform` models `np.random.rand(N)` (values in `[0,1)`); `bobNoise i` is
the `np.random.randint(0, 2)` draw Bob would use at a mismatched-basis
position `i`; `checkIndices` is the `np.random.choice(sifted_length,
CHECK_SIZE, replace=False)` sample. -/
structure Tape (N : Nat) where
  aliceBits : Fin N → Bool
  aliceBases : Fin N → Bool
  bobBases : Fin N → Bool
  eveBases : Fin N → Bool
  eveUniform : Fin N → ℚ
  bobNoise : Fin N → Bool
  checkIndices : List Nat

/-- `intercept_mask = np.random.rand(N) < EAVESDROP_PROB` (line 27). -/
def interceptMask {N : Nat} (cfg : Config) (t : Tape N) (i : Fin N) : Bool :=
  decide (t.eveUniform i < cfg.eavesdropProb)

/-- `eve_error_mask = intercept_mask & (alice_bases != eve_bases)` (line 29). -/
def eveErrorMask {N : Nat} (cfg : Config) (t : Tape N) (i : Fin N) : Bool :=
  interceptMask cfg t i && (t.aliceBases i != t.eveBases i)

/-- `received_bits`: a copy of `alice_bits`, with the bit flipped wherever
`eve_error_mask` holds — and only when `eavesdropper_present` (lines 21-32). -/
def receivedBits {N : Nat} (cfg : Config) (e : Bool) (t : Tape N) (i : Fin N) : Bool :=
  if e && eveErrorMask cfg t i then !(t.aliceBits i) else t.aliceBits i

/-- Bob's measurement (lines 35-43): the received bit where the bases match,
otherwise a fresh uniform bit. -/
def bobBits {N : Nat} (cfg : Config) (e : Bool) (t : Tape N) (i : Fin N) : Bool :=
  if t.aliceBases i = t.bobBases i then receivedBits cfg e t i else t.bobNoise i

/-- The positions kept by `sift_mask = (alice_bases == bob_bases)` (line 46),
in their original order. -/
def siftIdx {N : Nat} (t : Tape N) : List (Fin N) :=
  (List.finRange N).filter (fun i => t.aliceBases i == t.bobBases i)

/-- `alice_sifted_key = alice_bits[sift_mask]` (line 47). -/
def aliceSifted {N : Nat} (t : Tape N) : List Bool :=
  (siftIdx t).map t.aliceBits

/-- `bob_sifted_key = bob_bits[sift_mask]` (line 48). -/
def bobSifted {N : Nat} (cfg : Config) (e : Bool) (t : Tape N) : List Bool :=
  (siftIdx t).map (bobBits cfg e t)

/-- `sifted_length = len(alice_sifted_key)` (line 49). -/
def siftedLength {N : Nat} (t : Tape N) : Nat :=
  (aliceSifted t).length

/-- `CHECK_SIZE = sifted_length // 4` (line 55). -/
def checkSize {N : Nat} (t : Tape N) : Nat :=
  siftedLength t / 4

/-- What `np.random.choice(sifted_length, CHECK_SIZE, replace=False)`
guarantees about the drawn sample (line 56): `CHECK_SIZE` distinct indices,
all below `sifted_length`. -/
def validSample {N : Nat} (t : Tape N) : Prop :=
  t.checkIndices.Nodup ∧ t.checkIndices.length = checkSize t ∧
    ∀ j ∈ t.checkIndices, j < siftedLength t

instance {N : Nat} (t : Tape N) : Decidable (validSample t) := by
  unfold validSample; infer_instance

/-- `errors = np.sum(alice_check != bob_check)` (lines 58-61): the number of
sampled positions where the two sifted keys disagree. -/
def errors {N : Nat} (cfg : Config) (e : Bool) (t : Tape N) : Nat :=
  (t.checkIndices.filter (fun j =>
    (aliceSifted t).getD j false != (bobSifted cfg e t).getD j false)).length

/-- `qber = errors / CHECK_SIZE if CHECK_SIZE > 0 else 0` (line 62).  The
division of the two counts is written `mkRat` (exact rational division,
since the guard keeps the denominator nonzero — see `qber_eq_div`) so that
it evaluates on concrete tapes. -/
def qber {N : Nat} (cfg : Config) (e : Bool) (t : Tape N) : ℚ :=
  if 0 < checkSize t then mkRat (errors cfg e t) (checkSize t) else 0

/-- On the guarded branch, `qber` is the ordinary rational division of the
error count by the sample size. -/
theorem qber_eq_div {N : Nat} (cfg : Config) (e : Bool) (t : Tape N)
    (hc : 0 < checkSize t) :
    qber cfg e t = (errors cfg e t : ℚ) / (checkSize t : ℚ) := by
  unfold qber
  rw [if_pos hc, Rat.mkRat_eq_div]
  push_cast
  rfl

/-- The two configuration constants are the exact rationals `1/2` and
`11/100`. -/
theorem config_constants_eq :
    EAVESDROP_PROB = 1 / 2 ∧ SECURITY_THRESHOLD = 11 / 100 := by
  constructor <;> norm_num [EAVESDROP_PROB, SECURITY_THRESHOLD, Rat.mkRat_eq_div]

/-- The index positions of the remaining key:
`~np.isin(np.arange(sifted_length), check_indices)` (lines 65-66). -/
def remainingIdx {N : Nat} (t : Tape N) : List Nat :=
  (List.range (siftedLength t)).filter (fun j => !(decide (j ∈ t.checkIndices)))

/-- `remaining_key = alice_sifted_key[...]` (lines 65-66): Alice's sifted
bits at the non-sampled positions, in original order. -/
def remainingKey {N : Nat} (t : Tape N) : List Bool :=
  (remainingIdx t).map (fun j => (aliceSifted t).getD j false)

/-- The justification text returned by the protocol.  The sift-failure
message is the literal string from line 52; the intrusion and secure
messages (lines 70 and 73-74) are f-strings whose decimal formatting is
abstracted: the constructors record the interpolated data (the QBER shown as
a percentage, and the up-to-10-bit key preview). -/
inductive Justification where
  | siftFailure
  | intrusion (qberValue : ℚ)
  | secure (qberValue : ℚ) (preview : List Bool)
deriving DecidableEq, Repr

/-- The rendered message; for the intrusion and secure branches only the
skeleton of the f-string, with the interpolated values abstracted by
`toString` of the exact rational percentage. -/
def Justification.message : Justification → String
  | .siftFailure => "Key failure due to sifting."
  | .intrusion q =>
      "🚨 Eavesdropper detected (QBER: " ++ toString (q * 100) ++
        "%). The quantum disturbance proves intrusion, so the key is discarded and the conversation is cut."
  | .secure q p =>
      "✅ Key is SECURE (QBER: " ++ toString (q * 100) ++
        "%). The low error rate confirms no intrusion, and the remaining key is successfully generated (" ++
        String.join (p.map (fun b => if b then "1" else "0")) ++ "...)."

/-- `run_qkd_protocol(eavesdropper_present)` (lines 11-75), as a pure
function of the flag, the configuration and the random tape.  Returns the
optional remaining key and the justification. -/
def run_qkd_protocol {N : Nat} (cfg : Config) (e : Bool) (t : Tape N) :
    Option (List Bool) × Justification :=
  if siftedLength t = 0 then
    (none, .siftFailure)
  else if qber cfg e t > cfg.securityThreshold then
    (none, .intrusion (qber cfg e t))
  else
    (some (remainingKey t), .secure (qber cfg e t) ((remainingKey t).take 10))

/-! ## Concrete tapes used to instantiate the theorems -/

/-- The empty run: `N = 0`, no draws at all. -/
def t0 : Tape 0 :=
  ⟨fun i => i.elim0, fun i => i.elim0, fun i => i.elim0, fun i => i.elim0,
    fun i => i.elim0, fun i => i.elim0, []⟩

/-- A one-photon run whose single pair of bases matches; the check sample is
empty (`CHECK_SIZE = 1 // 4 = 0`). -/
def t1 : Tape 1 :=
  ⟨fun _ => true, fun _ => false, fun _ => false, fun _ => false,
    fun _ => 0, fun _ => false, []⟩

/-- A one-photon run whose single pair of bases mismatches. -/
def tMis : Tape 1 :=
  ⟨fun _ => true, fun _ => false, fun _ => true, fun _ => false,
    fun _ => 0, fun _ => true, []⟩

/-- `tMis` with Alice's bit, Eve's basis and the interception draw changed;
the bases and Bob's noise draw are unchanged. -/
def tMis2 : Tape 1 :=
  ⟨fun _ => false, fun _ => false, fun _ => true, fun _ => true,
    fun _ => 1, fun _ => true, []⟩

/-- A four-photon run, all bases matching, check sample `[2]`. -/
def t4 : Tape 4 :=
  ⟨fun _ => true, fun _ => false, fun _ => false, fun _ => false,
    fun _ => 0, fun _ => false, [2]⟩

/-! ## Claims -/

/-- **C1.** For every run that reaches the decision stage (sifting
succeeded), the protocol returns `(none, intrusion justification carrying
the QBER)` exactly when `qber > security_threshold`, and otherwise returns
the remaining key together with a secure justification carrying the QBER and
the preview of up to 10 key bits; the key is non-`none` exactly on the
accepting branch. -/
theorem C1_decision {N : Nat} (cfg : Config) (e : Bool) (t : Tape N)
    (h : siftedLength t ≠ 0) :
    (qber cfg e t > cfg.securityThreshold →
      run_qkd_protocol cfg e t = (none, .intrusion (qber cfg e t)))
    ∧ (¬ qber cfg e t > cfg.securityThreshold →
      run_qkd_protocol cfg e t =
        (some (remainingKey t), .secure (qber cfg e t) ((remainingKey t).take 10)))
    ∧ ((run_qkd_protocol cfg e t).1 = none ↔ qber cfg e t > cfg.securityThreshold) := by
  unfold run_qkd_protocol
  rw [if_neg h]
  by_cases hq : qber cfg e t > cfg.securityThreshold
  · simp [hq]
  · simp [hq]

/-- Witness for C1 on the concrete one-photon run `t1`. -/
theorem C1_decision_witness :
    run_qkd_protocol defaultConfig false t1 =
      (some (remainingKey t1),
        .secure (qber defaultConfig false t1) ((remainingKey t1).take 10)) :=
  (C1_decision defaultConfig false t1 (by decide)).2.1 (by decide)

/-- **C2.** When sifting succeeds, `check_size = sifted_length / 4` (integer
division) and `qber` is the number of disagreeing sampled positions divided
by `check_size`, or `0` when `check_size = 0`; in every case
`qber ∈ [0, 1]`.  The hypothesis `hlen` is the sample-size guarantee of
`np.random.choice`. -/
theorem C2_qber {N : Nat} (cfg : Config) (e : Bool) (t : Tape N)
    (_hs : siftedLength t ≠ 0) (hlen : t.checkIndices.length = checkSize t) :
    checkSize t = siftedLength t / 4
    ∧ (0 < checkSize t → qber cfg e t = (errors cfg e t : ℚ) / (checkSize t : ℚ))
    ∧ (checkSize t = 0 → qber cfg e t = 0)
    ∧ 0 ≤ qber cfg e t ∧ qber cfg e t ≤ 1 := by
  have herr : errors cfg e t ≤ checkSize t := by
    rw [← hlen]
    exact List.length_filter_le _ _
  refine ⟨rfl, fun hc => qber_eq_div cfg e t hc, fun hc => ?_, ?_, ?_⟩
  · unfold qber
    rw [if_neg (by omega)]
  · by_cases hc : 0 < checkSize t
    · rw [qber_eq_div cfg e t hc]
      positivity
    · unfold qber
      rw [if_neg hc]
  · by_cases hc : 0 < checkSize t
    · rw [qber_eq_div cfg e t hc, div_le_one (by exact_mod_cast hc)]
      exact_mod_cast herr
    · unfold qber
      rw [if_neg hc]
      exact zero_le_one

/-- Witness for C2 on the concrete four-photon run `t4`. -/
theorem C2_qber_witness :
    checkSize t4 = siftedLength t4 / 4
    ∧ (0 < checkSize t4 →
        qber defaultConfig true t4 = (errors defaultConfig true t4 : ℚ) / (checkSize t4 : ℚ))
    ∧ (checkSize t4 = 0 → qber defaultConfig true t4 = 0)
    ∧ 0 ≤ qber defaultConfig true t4 ∧ qber defaultConfig true t4 ≤ 1 :=
  C2_qber defaultConfig true t4 (by decide) (by decide)

/-- **C3.** The received stream equals Alice's bits except that, when the
eavesdropper is present, the bit is complemented exactly where the
interception draw fired AND Alice's and Eve's bases differ; with no
eavesdropper the stream is untouched. -/
theorem C3_transmission {N : Nat} (cfg : Config) (t : Tape N) (i : Fin N) :
    (receivedBits cfg true t i =
      if interceptMask cfg t i = true ∧ t.aliceBases i ≠ t.eveBases i
      then !(t.aliceBits i) else t.aliceBits i)
    ∧ receivedBits cfg false t i = t.aliceBits i := by
  constructor
  · cases hm : interceptMask cfg t i <;>
      cases hab : t.aliceBases i <;> cases hev : t.eveBases i <;>
        simp [receivedBits, eveErrorMask, hm, hab, hev]
  · simp [receivedBits]

/-- **C4.** Bob's bit equals the received bit where the bases match and the
fresh noise draw where they mismatch; at a mismatched position the measured
bit does not depend on the received stream or the interception state (it is
unchanged under any change of Alice's bits, Eve's bases and the interception
draws). -/
theorem C4_measurement {N : Nat} (cfg : Config) (e : Bool) (t : Tape N) (i : Fin N) :
    (bobBits cfg e t i =
      if t.aliceBases i = t.bobBases i then receivedBits cfg e t i else t.bobNoise i)
    ∧ (∀ t' : Tape N, t.aliceBases i ≠ t.bobBases i →
        t'.aliceBases = t.aliceBases → t'.bobBases = t.bobBases →
        t'.bobNoise = t.bobNoise → bobBits cfg e t' i = bobBits cfg e t i) := by
  refine ⟨rfl, fun t' hne ha hb hn => ?_⟩
  rw [bobBits, bobBits, ha, hb, hn, if_neg hne, if_neg hne]

/-- Witness for C4: at the mismatched-basis run `tMis`, changing Alice's
bit, Eve's basis and the interception draw (`tMis2`) leaves Bob's measured
bit unchanged. -/
theorem C4_measurement_witness :
    bobBits defaultConfig true tMis2 (0 : Fin 1) = bobBits defaultConfig true tMis (0 : Fin 1) :=
  (C4_measurement defaultConfig true tMis (0 : Fin 1)).2 tMis2 (by decide) rfl rfl rfl

/-- **C5.** If the sifted key is empty the protocol short-circuits: it
returns `none` with the sift-failure justification, whose message is
exactly `"Key failure due to sifting."`, touching neither the security
check nor the decision stage. -/
theorem C5_sift_failure {N : Nat} (cfg : Config) (e : Bool) (t : Tape N)
    (h : siftedLength t = 0) :
    run_qkd_protocol cfg e t = (none, .siftFailure)
    ∧ Justification.siftFailure.message = "Key failure due to sifting." := by
  constructor
  · unfold run_qkd_protocol
    rw [if_pos h]
  · rfl

/-- Witness for C5 on the empty run `t0` (`N = 0`). -/
theorem C5_sift_failure_witness :
    run_qkd_protocol defaultConfig false t0 = (none, .siftFailure)
    ∧ Justification.siftFailure.message = "Key failure due to sifting." :=
  C5_sift_failure defaultConfig false t0 (by decide)

/-- Helper: removing a duplicate-free list of indices, all below `n`, from
`range n` leaves exactly `n - c.length` positions. -/
theorem filterNotMem_length {n : Nat} {c : List Nat} (hnd : c.Nodup)
    (hsub : ∀ j ∈ c, j < n) :
    ((List.range n).filter (fun j => !(decide (j ∈ c)))).length = n - c.length := by
  have hperm : ((List.range n).filter (fun j => decide (j ∈ c))).Perm c := by
    rw [List.perm_ext_iff_of_nodup ((List.nodup_range n).filter _) hnd]
    intro a
    simp only [List.mem_filter, List.mem_range, decide_eq_true_eq]
    exact ⟨fun h => h.2, fun h => ⟨hsub a h, h⟩⟩
  have h2 := @List.length_eq_length_filter_add Nat (List.range n)
    (fun j => decide (j ∈ c))
  have h1 : ((List.range n).filter (fun j => decide (j ∈ c))).length = c.length :=
    hperm.length_eq
  rw [List.length_range, h1] at h2
  omega

/-- **C6.** When sifting succeeds and the sample obeys the
`np.random.choice` contract: the check sample consists of exactly
`check_size` distinct indices below `sifted_length`; the remaining-key
positions are exactly the non-sampled sifted positions (in original order);
the two index sets are disjoint and together cover the whole sifted index
range; `len(sifted_key) ≤ N` and
`len(remaining_key) = sifted_length - check_size`. -/
theorem C6_partition {N : Nat} (t : Tape N)
    (_h : siftedLength t ≠ 0) (hv : validSample t) :
    t.checkIndices.Nodup
    ∧ t.checkIndices.length = checkSize t
    ∧ (∀ j ∈ t.checkIndices, j < siftedLength t)
    ∧ (∀ j, j ∈ remainingIdx t ↔ j < siftedLength t ∧ j ∉ t.checkIndices)
    ∧ (∀ j, ¬(j ∈ t.checkIndices ∧ j ∈ remainingIdx t))
    ∧ (∀ j, j < siftedLength t ↔ (j ∈ t.checkIndices ∨ j ∈ remainingIdx t))
    ∧ remainingKey t = (remainingIdx t).map (fun j => (aliceSifted t).getD j false)
    ∧ siftedLength t ≤ N
    ∧ (remainingKey t).length = siftedLength t - checkSize t := by
  obtain ⟨hnd, hlen, hsub⟩ := hv
  have hmem : ∀ j, j ∈ remainingIdx t ↔ j < siftedLength t ∧ j ∉ t.checkIndices := by
    intro j
    simp [remainingIdx, List.mem_filter, List.mem_range]
  refine ⟨hnd, hlen, hsub, hmem, ?_, ?_, rfl, ?_, ?_⟩
  · intro j ⟨hc, hr⟩
    exact ((hmem j).1 hr).2 hc
  · intro j
    constructor
    · intro hj
      by_cases hc : j ∈ t.checkIndices
      · exact Or.inl hc
      · exact Or.inr ((hmem j).2 ⟨hj, hc⟩)
    · rintro (hc | hr)
      · exact hsub j hc
      · exact ((hmem j).1 hr).1
  · have : siftedLength t = ((List.finRange N).filter
        (fun i => t.aliceBases i == t.bobBases i)).length := by
      simp [siftedLength, aliceSifted, siftIdx]
    rw [this]
    calc ((List.finRange N).filter (fun i => t.aliceBases i == t.bobBases i)).length
        ≤ (List.finRange N).length := List.length_filter_le _ _
      _ = N := List.length_finRange N
  · rw [remainingKey, List.length_map, remainingIdx, filterNotMem_length hnd hsub, hlen]

/-- Witness for C6 on the concrete four-photon run `t4`. -/
theorem C6_partition_witness :
    t4.checkIndices.Nodup
    ∧ t4.checkIndices.length = checkSize t4
    ∧ (∀ j ∈ t4.checkIndices, j < siftedLength t4)
    ∧ (∀ j, j ∈ remainingIdx t4 ↔ j < siftedLength t4 ∧ j ∉ t4.checkIndices)
    ∧ (∀ j, ¬(j ∈ t4.checkIndices ∧ j ∈ remainingIdx t4))
    ∧ (∀ j, j < siftedLength t4 ↔ (j ∈ t4.checkIndices ∨ j ∈ remainingIdx t4))
    ∧ remainingKey t4 = (remainingIdx t4).map (fun j => (aliceSifted t4).getD j false)
    ∧ siftedLength t4 ≤ 4
    ∧ (remainingKey t4).length = siftedLength t4 - checkSize t4 :=
  C6_partition t4 (by decide) (by decide)

/-- An out-of-range configuration: `EAVESDROP_PROB` set to `1.5`. -/
def badConfig : Config := ⟨mkRat 3 2, SECURITY_THRESHOLD⟩

/-- **C7.** The configuration block of `final1.py` (lines 4-8) is three bare
module-level assignments: no validation runs at setup, so an out-of-range
probability is accepted silently.  With `EAVESDROP_PROB = 1.5` and the
uniform draws in `[0, 1)` every photon is intercepted (the invalid value
acts like probability 1) and the run completes with a normal protocol
outcome instead of failing before any randomness is drawn. -/
theorem C7_no_config_validation :
    (∀ i, interceptMask badConfig t1 i = true)
    ∧ run_qkd_protocol badConfig true t1 =
        (some (remainingKey t1),
          .secure (qber badConfig true t1) ((remainingKey t1).take 10)) := by
  constructor
  · decide
  · decide

/-- `t1` with every field rewritten to a syntactically different but
pointwise-equal draw sequence. -/
def t1b : Tape 1 :=
  ⟨fun _ => !false, fun _ => !true, fun _ => !true, fun _ => !true,
    fun _ => mkRat 0 3, fun _ => !true, List.replicate 0 0⟩

/-- **C8.** With the randomness explicit, the protocol is a pure function
of the flag and the draw sequence: two runs on pointwise-identical draw
sequences with the same flag return identical `(key, justification)`
pairs (and the embedding returns nothing but that pair). -/
theorem C8_determinism {N : Nat} (cfg : Config) (e : Bool) (t t' : Tape N)
    (h1 : ∀ i, t.aliceBits i = t'.aliceBits i)
    (h2 : ∀ i, t.aliceBases i = t'.aliceBases i)
    (h3 : ∀ i, t.bobBases i = t'.bobBases i)
    (h4 : ∀ i, t.eveBases i = t'.eveBases i)
    (h5 : ∀ i, t.eveUniform i = t'.eveUniform i)
    (h6 : ∀ i, t.bobNoise i = t'.bobNoise i)
    (h7 : t.checkIndices = t'.checkIndices) :
    run_qkd_protocol cfg e t = run_qkd_protocol cfg e t' := by
  have ht : t = t' := by
    cases t
    cases t'
    simp only [Tape.mk.injEq]
    exact ⟨funext h1, funext h2, funext h3, funext h4, funext h5, funext h6, h7⟩
  rw [ht]

/-- Witness for C8: `t1` and its rewritten copy `t1b` give the same
output. -/
theorem C8_determinism_witness :
    run_qkd_protocol defaultConfig false t1 = run_qkd_protocol defaultConfig false t1b :=
  C8_determinism defaultConfig false t1 t1b
    (fun _ => rfl) (fun _ => rfl) (fun _ => rfl) (fun _ => rfl)
    (fun _ => rfl) (fun _ => rfl) rfl

/-- **C9.** With no eavesdropper, under any draws: Bob's sifted key equals
Alice's sifted key position-by-position, the QBER is exactly `0`, the
high-QBER rejection branch can never fire (with the program's threshold
`0.11`), and the only possible failure outcome is the empty-sift
rejection. -/
theorem C9_no_eavesdropper {N : Nat} (t : Tape N) :
    bobSifted defaultConfig false t = aliceSifted t
    ∧ qber defaultConfig false t = 0
    ∧ (siftedLength t = 0 →
        run_qkd_protocol defaultConfig false t = (none, .siftFailure))
    ∧ (siftedLength t ≠ 0 →
        run_qkd_protocol defaultConfig false t =
          (some (remainingKey t), .secure 0 ((remainingKey t).take 10))) := by
  have hkeys : bobSifted defaultConfig false t = aliceSifted t := by
    unfold bobSifted aliceSifted
    apply List.map_congr_left
    intro i hi
    have hmatch : t.aliceBases i = t.bobBases i := by
      have := (List.mem_filter.1 hi).2
      exact beq_iff_eq.1 this
    rw [bobBits, if_pos hmatch, receivedBits]
    simp
  have herr : errors defaultConfig false t = 0 := by
    simp [errors, hkeys]
  have hq : qber defaultConfig false t = 0 := by
    unfold qber
    rw [herr]
    split
    · simp
    · rfl
  refine ⟨hkeys, hq, fun h0 => ?_, fun hne => ?_⟩
  · unfold run_qkd_protocol
    rw [if_pos h0]
  · unfold run_qkd_protocol
    rw [if_neg hne, hq, if_neg (by decide)]

/-- Witness for C9 on the concrete one-photon run `t1`. -/
theorem C9_no_eavesdropper_witness :
    run_qkd_protocol defaultConfig false t1 =
      (some (remainingKey t1), .secure 0 ((remainingKey t1).take 10)) :=
  (C9_no_eavesdropper t1).2.2.2 (by decide)

/-- An eight-photon run with an eavesdropper: all of Alice's and Bob's
bases match, Eve intercepts photon 2 with a mismatched basis (flipping it),
and the check sample `[0, 1]` misses the disturbed position. -/
def tEve : Tape 8 :=
  ⟨fun _ => false, fun _ => false, fun _ => false, fun i => decide (i.val = 2),
    fun i => if i.val = 2 then 0 else mkRat 9 10, fun _ => false, [0, 1]⟩

/-- **C10.** The accepted key is built exclusively from Alice's sifted bits:
every accepted run returns exactly `remainingKey`, which is determined by
Alice's bits, the two public basis strings and the sample — never by Bob's
measured bits; and on the concrete run `tEve` (eavesdropper present, QBER
under the threshold) Bob's bits at the returned positions differ from the
returned key. -/
theorem C10_key_from_alice :
    (∀ (N : Nat) (cfg : Config) (e : Bool) (t : Tape N) (k : List Bool) (j : Justification),
        run_qkd_protocol cfg e t = (some k, j) →
        (k = remainingKey t ∧
          ∀ t' : Tape N, t'.aliceBits = t.aliceBits → t'.aliceBases = t.aliceBases →
            t'.bobBases = t.bobBases → t'.checkIndices = t.checkIndices →
            remainingKey t' = remainingKey t))
    ∧ (run_qkd_protocol defaultConfig true tEve).1 = some (remainingKey tEve)
    ∧ qber defaultConfig true tEve ≤ SECURITY_THRESHOLD
    ∧ (remainingIdx tEve).map
        (fun p => (bobSifted defaultConfig true tEve).getD p false) ≠ remainingKey tEve := by
  refine ⟨?_, by decide, by decide, by decide⟩
  intro N cfg e t k j hrun
  have hk : k = remainingKey t := by
    unfold run_qkd_protocol at hrun
    split at hrun
    · exact absurd (congrArg Prod.fst hrun) (by simp)
    · split at hrun
      · exact absurd (congrArg Prod.fst hrun) (by simp)
      · have := congrArg Prod.fst hrun
        simp only at this
        exact (Option.some.injEq _ _ ▸ this.symm)
  refine ⟨hk, fun t' hbits ha hb hc => ?_⟩
  have hsift : siftIdx t' = siftIdx t := by
    unfold siftIdx
    rw [ha, hb]
  have halice : aliceSifted t' = aliceSifted t := by
    unfold aliceSifted
    rw [hsift, hbits]
  have hslen : siftedLength t' = siftedLength t := by
    unfold siftedLength
    rw [halice]
  unfold remainingKey remainingIdx
  rw [halice, hslen, hc]

/-- Witness for C10: on `tEve` the accepted key is the all-`false`
restriction of Alice's bits, even though Bob's corresponding bits differ. -/
theorem C10_key_from_alice_witness :
    ([false, false, false, false, false, false] : List Bool) = remainingKey tEve :=
  (C10_key_from_alice.1 8 defaultConfig true tEve
    [false, false, false, false, false, false]
    (Justification.secure 0 [false, false, false, false, false, false])
    (by decide)).1

end QKD
